import Mathlib

/-!
Verification development for the VIPO Pareto frontier viewer
(`src/pareto-viewer/main.cpp`).

The program is shallowly embedded here:

* 3-component vectors (`glm::vec3`, pairs of `uint32_t`) become the
  structure `V3` over `ℚ` (parser / framer, exact arithmetic) or over
  `ℝ` (camera, since trigonometry is involved);
* the line-oriented parser of `main` becomes `parseLines`, with a small
  model `SS` of a `std::stringstream` token stream including the C++11
  behaviour of formatted extraction on failure (the stream's fail state
  is never checked by the program);
* the AABB loop of `main` becomes `aabbMinMax` (note: the source loop
  starts at index 2 with stride 2);
* the model-normalization matrix built with `glm::scale` / `glm::translate`
  becomes `model`, over 4×4 matrices `Mat4`;
* the per-frame controller `application::detail::update` and the scroll
  callback of `init_window` become the event step function `step`;
* `glm::perspective` (as called by `application::detail::resize`)
  becomes `glmPerspective`.
-/

set_option maxHeartbeats 1000000

/-- A 3-component vector, the embedding of `glm::vec3` (and of triples
of scalars in general). -/
structure V3 (α : Type) where
  x : α
  y : α
  z : α
deriving DecidableEq, Repr

instance [Add α] : Add (V3 α) := ⟨fun a b => ⟨a.x + b.x, a.y + b.y, a.z + b.z⟩⟩
instance [Sub α] : Sub (V3 α) := ⟨fun a b => ⟨a.x - b.x, a.y - b.y, a.z - b.z⟩⟩
instance [Neg α] : Neg (V3 α) := ⟨fun a => ⟨-a.x, -a.y, -a.z⟩⟩
instance [Mul α] : SMul α (V3 α) := ⟨fun r v => ⟨r * v.x, r * v.y, r * v.z⟩⟩

/-! ## Tokenization

`std::stringstream` extraction splits a line into maximal runs of
non-whitespace characters.  We model a line as its `String` and
tokenize its character list directly. -/

/-- Split a character list into whitespace-separated tokens.
The accumulator holds the current (reversed) partial token. -/
def tokenizeAux : List Char → List Char → List String
  | [], acc => if acc = [] then [] else [String.mk acc.reverse]
  | c :: cs, acc =>
    if c.isWhitespace then
      if acc = [] then tokenizeAux cs []
      else String.mk acc.reverse :: tokenizeAux cs []
    else tokenizeAux cs (c :: acc)

/-- The whitespace-separated tokens of a line. -/
def tokensOf (s : String) : List String := tokenizeAux s.data []

/-! ## Numeric extraction

The program extracts `float` and `uint32_t` fields with `operator>>`
and never checks the stream state.  We model the C++11 semantics it
relies on: if the stream is already failed, extraction leaves the
target unchanged; if no token is left, the fail bit is set and the
target is unchanged; if the next token does not parse, the fail bit is
set and `0` is stored; otherwise the parsed value is stored. -/

/-- Digit run value in base 10 (`'0'` has code 48). -/
def digitsVal (cs : List Char) : ℕ := cs.foldl (fun a c => 10 * a + (c.toNat - 48)) 0

/-- All characters are decimal digits. -/
def allDigits (cs : List Char) : Bool := cs.all Char.isDigit

/-- Parse an unsigned decimal token (`uint32_t` field of an `l` line);
`none` when the token is not a plain digit run. -/
def parseUIntTok (s : String) : Option ℕ :=
  if s.data ≠ [] ∧ allDigits s.data then some (digitsVal s.data) else none

/-- Parse the digits-and-dot core of a decimal float token. -/
def floatCore (cs : List Char) : Option ℚ :=
  let ip := cs.takeWhile (fun c => c != Char.ofNat 46)
  let rest := cs.dropWhile (fun c => c != Char.ofNat 46)
  match rest with
  | [] => if ip ≠ [] ∧ allDigits ip then some ((digitsVal ip : ℚ)) else none
  | _ :: fp =>
    if (ip ≠ [] ∨ fp ≠ []) ∧ allDigits ip ∧ allDigits fp then
      some ((digitsVal ip : ℚ) + (digitsVal fp : ℚ) / (10 ^ fp.length : ℚ))
    else none

/-- Parse a decimal float token (a `v` line field), with optional sign.
Exponents are not modelled; no input in this development uses them. -/
def parseFloatTok (s : String) : Option ℚ :=
  match s.data with
  | c :: cs =>
    if c = Char.ofNat 45 then (floatCore cs).map (fun q => -q)
    else if c = Char.ofNat 43 then floatCore cs
    else floatCore (c :: cs)
  | [] => none

/-- The model of a `std::stringstream` over one line: remaining tokens
plus the fail bit. -/
structure SS where
  toks : List String
  fail : Bool
deriving DecidableEq, Repr

/-- `stream >> command` for a `std::string` target defaulting to `""`:
yields the next token, or sets the fail bit and yields `""` at
end of stream. -/
def readTok (s : SS) : SS × String :=
  if s.fail then (s, "")
  else
    match s.toks with
    | [] => (⟨[], true⟩, "")
    | t :: ts => (⟨ts, false⟩, t)

/-- `stream >> x` for a `float` target whose current value is `cur`
(the target is an uninitialized `glm::vec3` component in the source;
its indeterminate value is modelled as the `cur` argument). -/
def extractQ (s : SS) (cur : ℚ) : SS × ℚ :=
  if s.fail then (s, cur)
  else
    match s.toks with
    | [] => (⟨[], true⟩, cur)
    | t :: ts =>
      match parseFloatTok t with
      | some q => (⟨ts, false⟩, q)
      | none => (⟨t :: ts, true⟩, 0)

/-- `stream >> i` for a `uint32_t` target with current value `cur`;
on overflow the extracted value clamps to `2^32 - 1` and the fail bit
is set (never checked by the program). -/
def extractU32 (s : SS) (cur : ℕ) : SS × ℕ :=
  if s.fail then (s, cur)
  else
    match s.toks with
    | [] => (⟨[], true⟩, cur)
    | t :: ts =>
      match parseUIntTok t with
      | some n => if n < 2 ^ 32 then (⟨ts, false⟩, n) else (⟨ts, true⟩, 2 ^ 32 - 1)
      | none => (⟨t :: ts, true⟩, 0)

/-! ## The parser loop of `main` -/

/-- The parsed frontier: the globals `vertices` and `edges`. -/
structure Frontier where
  vertices : List (V3 ℚ)
  edges : List (ℕ × ℕ)
deriving DecidableEq, Repr

/-- The empty initial frontier state. -/
def pInit : Frontier := ⟨[], []⟩

/-- One iteration of the parse loop of `main` on one line: skip empty
lines, dispatch on the command token, and report an unknown command as
a fatal error carrying the offending token. -/
def parseLine (st : Frontier) (l : String) : Except String Frontier :=
  if l = "" then Except.ok st
  else
    let r1 := readTok ⟨tokensOf l, false⟩
    let command := r1.2
    if command = "v" then
      let rx := extractQ r1.1 0
      let ry := extractQ rx.1 0
      let rz := extractQ ry.1 0
      Except.ok ⟨st.vertices ++ [⟨rx.2, ry.2, rz.2⟩], st.edges⟩
    else if command = "l" then
      let ri := extractU32 r1.1 0
      let rj := extractU32 ri.1 0
      Except.ok ⟨st.vertices, st.edges ++ [(ri.2, rj.2)]⟩
    else Except.error command

/-- The whole parse loop of `main` over the lines of the file. -/
def parseLines : List String → Frontier → Except String Frontier
  | [], st => Except.ok st
  | l :: ls, st =>
    match parseLine st l with
    | Except.ok st2 => parseLines ls st2
    | Except.error e => Except.error e

/-- `Except` success as a boolean. -/
def okB : Except String Frontier → Bool
  | Except.ok _ => true
  | Except.error _ => false

/-! ## The Framer: AABB and model normalization -/

/-- Componentwise `min` (`glm::min`). -/
def vmin (a b : V3 ℚ) : V3 ℚ := ⟨min a.x b.x, min a.y b.y, min a.z b.z⟩

/-- Componentwise `max` (`glm::max`). -/
def vmax (a b : V3 ℚ) : V3 ℚ := ⟨max a.x b.x, max a.y b.y, max a.z b.z⟩

/-- The index sequence of the AABB loop of `main`:
`for (size_t i = 2; i < n; i += 2)`. -/
def strideIndices (n : ℕ) : List ℕ :=
  (List.range n).filter (fun i => 2 ≤ i && i % 2 == 0)

/-- The AABB computation of `main`: both accumulators start from
`vertices[0]` (an out-of-bounds read when the list is empty, modelled
as `none`), then the loop folds `min`/`max` over indices 2, 4, 6, …. -/
def aabbMinMax (vs : List (V3 ℚ)) : Option (V3 ℚ × V3 ℚ) :=
  match vs with
  | [] => none
  | v0 :: _ =>
    some ((strideIndices vs.length).foldl
      (fun p i => (vmin p.1 (vs.getD i v0), vmax p.2 (vs.getD i v0))) (v0, v0))

/-- A 4×4 matrix in mathematical (row, column) layout; `aRC` is the
entry at row `R`, column `C`. -/
structure Mat4 (α : Type) where
  a00 : α
  a01 : α
  a02 : α
  a03 : α
  a10 : α
  a11 : α
  a12 : α
  a13 : α
  a20 : α
  a21 : α
  a22 : α
  a23 : α
  a30 : α
  a31 : α
  a32 : α
  a33 : α
deriving DecidableEq, Repr

/-- Matrix product. -/
def Mat4.mul [Mul α] [Add α] (A B : Mat4 α) : Mat4 α where
  a00 := A.a00 * B.a00 + A.a01 * B.a10 + A.a02 * B.a20 + A.a03 * B.a30
  a01 := A.a00 * B.a01 + A.a01 * B.a11 + A.a02 * B.a21 + A.a03 * B.a31
  a02 := A.a00 * B.a02 + A.a01 * B.a12 + A.a02 * B.a22 + A.a03 * B.a32
  a03 := A.a00 * B.a03 + A.a01 * B.a13 + A.a02 * B.a23 + A.a03 * B.a33
  a10 := A.a10 * B.a00 + A.a11 * B.a10 + A.a12 * B.a20 + A.a13 * B.a30
  a11 := A.a10 * B.a01 + A.a11 * B.a11 + A.a12 * B.a21 + A.a13 * B.a31
  a12 := A.a10 * B.a02 + A.a11 * B.a12 + A.a12 * B.a22 + A.a13 * B.a32
  a13 := A.a10 * B.a03 + A.a11 * B.a13 + A.a12 * B.a23 + A.a13 * B.a33
  a20 := A.a20 * B.a00 + A.a21 * B.a10 + A.a22 * B.a20 + A.a23 * B.a30
  a21 := A.a20 * B.a01 + A.a21 * B.a11 + A.a22 * B.a21 + A.a23 * B.a31
  a22 := A.a20 * B.a02 + A.a21 * B.a12 + A.a22 * B.a22 + A.a23 * B.a32
  a23 := A.a20 * B.a03 + A.a21 * B.a13 + A.a22 * B.a23 + A.a23 * B.a33
  a30 := A.a30 * B.a00 + A.a31 * B.a10 + A.a32 * B.a20 + A.a33 * B.a30
  a31 := A.a30 * B.a01 + A.a31 * B.a11 + A.a32 * B.a21 + A.a33 * B.a31
  a32 := A.a30 * B.a02 + A.a31 * B.a12 + A.a32 * B.a22 + A.a33 * B.a32
  a33 := A.a30 * B.a03 + A.a31 * B.a13 + A.a32 * B.a23 + A.a33 * B.a33

/-- The identity matrix (`glm::mat4{1.0f}`). -/
def id4 [Zero α] [One α] : Mat4 α :=
  ⟨1, 0, 0, 0, 0, 1, 0, 0, 0, 0, 1, 0, 0, 0, 0, 1⟩

/-- The scaling matrix used by `glm::scale`. -/
def scaleMat [Zero α] [One α] (v : V3 α) : Mat4 α :=
  ⟨v.x, 0, 0, 0, 0, v.y, 0, 0, 0, 0, v.z, 0, 0, 0, 0, 1⟩

/-- The translation matrix used by `glm::translate` (translation in the
fourth column; transforms are applied to column vectors). -/
def translateMat [Zero α] [One α] (v : V3 α) : Mat4 α :=
  ⟨1, 0, 0, v.x, 0, 1, 0, v.y, 0, 0, 1, v.z, 0, 0, 0, 1⟩

/-- `glm::scale(m, v) = m * S(v)`. -/
def glmScale [Zero α] [One α] [Mul α] [Add α] (m : Mat4 α) (v : V3 α) : Mat4 α :=
  m.mul (scaleMat v)

/-- `glm::translate(m, v) = m * T(v)`. -/
def glmTranslate [Zero α] [One α] [Mul α] [Add α] (m : Mat4 α) (v : V3 α) : Mat4 α :=
  m.mul (translateMat v)

/-- Componentwise `1 / v` (`1.0f / vec`). -/
def onePer (v : V3 ℚ) : V3 ℚ := ⟨1 / v.x, 1 / v.y, 1 / v.z⟩

/-- The model-normalization matrix of `main`:
`model = glm::scale(mat4(1), 1/(0.5*(max-min)))` followed by
`model = glm::translate(model, -0.5*(max+min))`. -/
def model (mn mx : V3 ℚ) : Mat4 ℚ :=
  glmTranslate (glmScale id4 (onePer (((1 : ℚ) / 2) • (mx - mn))))
    ((-(1 : ℚ) / 2) • (mx + mn))

/-- Apply a 4×4 matrix to a point in homogeneous coordinates
(`M * vec4(p, 1)` followed by the perspective division the GPU
performs; `w = 1` for affine matrices). -/
def applyM (m : Mat4 ℚ) (p : V3 ℚ) : V3 ℚ :=
  let w := m.a30 * p.x + m.a31 * p.y + m.a32 * p.z + m.a33
  ⟨(m.a00 * p.x + m.a01 * p.y + m.a02 * p.z + m.a03) / w,
   (m.a10 * p.x + m.a11 * p.y + m.a12 * p.z + m.a13) / w,
   (m.a20 * p.x + m.a21 * p.y + m.a22 * p.z + m.a23) / w⟩

/-! ## Claim-side predicates (from the specification's words)

`specLineFails` formalizes the failure condition claimed by the spec:
"unknown command token or malformed numeric field".  It is compared
against the behaviour of `parseLine` / `parseLines` above. -/

/-- The first whitespace token of a line (empty when none). -/
def firstTok (l : String) : String := (tokensOf l).headD ""

/-- Whether the `k`-th field after the command parses as a float. -/
def floatFieldOk (ts : List String) (k : ℕ) : Bool :=
  match ts.get? k with
  | some t => (parseFloatTok t).isSome
  | none => false

/-- Whether the `k`-th field after the command parses as an unsigned
integer. -/
def uintFieldOk (ts : List String) (k : ℕ) : Bool :=
  match ts.get? k with
  | some t => (parseUIntTok t).isSome
  | none => false

/-- The spec's claimed failure condition for one line: a non-blank line
whose command token is neither `v` nor `l`, or a `v`/`l` line with a
malformed (or missing) numeric field. -/
def specLineFails (l : String) : Bool :=
  if l = "" then false
  else
    let ts := tokensOf l
    let c := ts.headD ""
    if c = "v" then
      !(floatFieldOk ts 1 && floatFieldOk ts 2 && floatFieldOk ts 3)
    else if c = "l" then
      !(uintFieldOk ts 1 && uintFieldOk ts 2)
    else true

/-- A line the parser accepts: blank, or command token `v` or `l`. -/
def goodLine (l : String) : Bool :=
  l = "" || firstTok l = "v" || firstTok l = "l"

/-- Every edge index is within the vertex list (the claimed parse-time
invariant). -/
def edgesValidB (f : Frontier) : Bool :=
  f.edges.all (fun e =>
    decide (e.1 < f.vertices.length) && decide (e.2 < f.vertices.length))

/-! ## The Camera and the Controller

The camera state is the group of globals `altitude`, `azimuth`,
`radius`, `origin`; `up` is the world constant `(0,0,1)` and
`fov = 45.0f` (degrees).  The controller is `application::detail::update`
(orbit and pan, driven by the per-frame cursor delta) together with the
scroll callback installed by `init_window` (zoom).  These involve
trigonometry, so they are embedded over `ℝ`. -/

/-- The world up axis `up{0, 0, 1}`. -/
def upW : V3 ℝ := ⟨0, 0, 1⟩

/-- The configured vertical field of view, in degrees (`fov = 45.0f`). -/
def fovDeg : ℝ := 45

/-- `glm::cross`. -/
def cross (a b : V3 ℝ) : V3 ℝ :=
  ⟨a.y * b.z - a.z * b.y, a.z * b.x - a.x * b.z, a.x * b.y - a.y * b.x⟩

/-- `glm::length`: the Euclidean norm. -/
noncomputable def length (v : V3 ℝ) : ℝ :=
  Real.sqrt (v.x * v.x + v.y * v.y + v.z * v.z)

/-- `glm::normalize` (the name `normalize` itself is taken by Mathlib). -/
noncomputable def glmNormalize (v : V3 ℝ) : V3 ℝ := (length v)⁻¹ • v

/-- `std::clamp(v, lo, hi)`. -/
noncomputable def clampf (v lo hi : ℝ) : ℝ :=
  if v < lo then lo else if hi < v then hi else v

/-- The camera state mutated by the controller. -/
structure Camera where
  altitude : ℝ
  azimuth : ℝ
  radius : ℝ
  origin : V3 ℝ

/-- The initial camera state: `radius = 5.0f`, `altitude = 0.0f`,
`azimuth = 0.0f`, `origin{0, 0, 0}`. -/
def camInit : Camera := ⟨0, 0, 5, ⟨0, 0, 0⟩⟩

/-- The camera offset vector computed at the top of `update`:
`camera = vec3(cos(alt)*cos(az), cos(alt)*sin(az), sin(alt))`
followed by `camera *= radius`. -/
noncomputable def camVec (c : Camera) : V3 ℝ :=
  c.radius • ⟨Real.cos c.altitude * Real.cos c.azimuth,
              Real.cos c.altitude * Real.sin c.azimuth,
              Real.sin c.altitude⟩

/-- `camera_right = normalize(cross(-camera, up))`. -/
noncomputable def camRight (c : Camera) : V3 ℝ := glmNormalize (cross (-camVec c) upW)

/-- `camera_up = normalize(cross(camera_right, -camera))`. -/
noncomputable def camUp (c : Camera) : V3 ℝ := glmNormalize (cross (camRight c) (-camVec c))

/-- `pixel_size = 2*tan(0.5*fov*M_PI/180)/screen_height`, for a
viewport of height `H` pixels. -/
noncomputable def pixelSize (H : ℝ) : ℝ :=
  2 * Real.tan (0.5 * fovDeg * Real.pi / 180) / H

/-- The altitude clamp bound `M_PI_2 - 1e-5f`. -/
noncomputable def orbitBound : ℝ := Real.pi / 2 - 1e-5

/-- An input event: one frame of `update` with the button states and
the cursor delta `(dx, dy)` of that frame, or one scroll callback with
wheel delta `d`. -/
inductive Ev
  | frame (left right : Bool) (dx dy : ℝ)
  | scroll (d : ℝ)

/-- One event step of the controller.  A `frame` event is the body of
`application::detail::update`: `camera`, `camera_right`, `camera_up`
and `pixel_size` are computed from the incoming state; if the left
button is held, `altitude += dy*0.01`, `azimuth -= dx*0.01`, and
altitude is clamped to `±orbitBound`; if the right button is held, the
origin is translated by `-scale*dx*camera_right + scale*dy*camera_up`
with `scale = 1.3*pixel_size*length(camera)`.  A `scroll` event is the
scroll callback: `radius *= exp(-0.1*d)`. -/
noncomputable def step (H : ℝ) (c : Camera) (e : Ev) : Camera :=
  match e with
  | Ev.scroll d => { c with radius := c.radius * Real.exp (-(0.1) * d) }
  | Ev.frame left right dx dy =>
    let rightAxis := camRight c
    let upAxis := camUp c
    let scale := 1.3 * pixelSize H * length (camVec c)
    let c1 :=
      if left then
        { c with
          altitude := clampf (c.altitude + dy * 0.01) (-orbitBound) orbitBound,
          azimuth := c.azimuth - dx * 0.01 }
      else c
    if right then
      { c1 with
        origin := c1.origin + ((-(scale * dx)) • rightAxis + (scale * dy) • upAxis) }
    else c1

/-! ## The projection matrix of `resize` -/

/-- `glm::perspective(fovy, aspect, zNear, zFar)` (right-handed,
clip space `[-1, 1]`); `fovy` is in radians. -/
noncomputable def glmPerspective (fovy aspect zNear zFar : ℝ) : Mat4 ℝ :=
  ⟨1 / (aspect * Real.tan (fovy / 2)), 0, 0, 0,
   0, 1 / Real.tan (fovy / 2), 0, 0,
   0, 0, -(zFar + zNear) / (zFar - zNear), -(2 * zFar * zNear) / (zFar - zNear),
   0, 0, -1, 0⟩

/-! ## Componentwise lemmas for `V3` -/

@[simp] theorem V3.add_x [Add α] (a b : V3 α) : (a + b).x = a.x + b.x := rfl
@[simp] theorem V3.add_y [Add α] (a b : V3 α) : (a + b).y = a.y + b.y := rfl
@[simp] theorem V3.add_z [Add α] (a b : V3 α) : (a + b).z = a.z + b.z := rfl
@[simp] theorem V3.sub_x [Sub α] (a b : V3 α) : (a - b).x = a.x - b.x := rfl
@[simp] theorem V3.sub_y [Sub α] (a b : V3 α) : (a - b).y = a.y - b.y := rfl
@[simp] theorem V3.sub_z [Sub α] (a b : V3 α) : (a - b).z = a.z - b.z := rfl
@[simp] theorem V3.neg_x [Neg α] (a : V3 α) : (-a).x = -a.x := rfl
@[simp] theorem V3.neg_y [Neg α] (a : V3 α) : (-a).y = -a.y := rfl
@[simp] theorem V3.neg_z [Neg α] (a : V3 α) : (-a).z = -a.z := rfl
@[simp] theorem V3.smul_x [Mul α] (r : α) (v : V3 α) : (r • v).x = r * v.x := rfl
@[simp] theorem V3.smul_y [Mul α] (r : α) (v : V3 α) : (r • v).y = r * v.y := rfl
@[simp] theorem V3.smul_z [Mul α] (r : α) (v : V3 α) : (r • v).z = r * v.z := rfl

/-! ## C1: the AABB skips every other vertex -/

/-- C1: evaluating the program's AABB computation on the tetrahedron
input of the spec (scenario 1).  The parser accepts the file and
produces the four vertices and six edges, but the AABB loop — which
starts at index 2 and strides by 2 — yields `aabb_max = (0, 1, 0)`,
not the componentwise maximum `(1, 1, 1)` over every vertex that the
claim states. -/
theorem c1_aabb_stride_skips_vertices :
    parseLines ["v 0 0 0", "v 1 0 0", "v 0 1 0", "v 0 0 1",
      "l 0 1", "l 0 2", "l 0 3", "l 1 2", "l 2 3", "l 3 1"] pInit =
      Except.ok ⟨[⟨0, 0, 0⟩, ⟨1, 0, 0⟩, ⟨0, 1, 0⟩, ⟨0, 0, 1⟩],
        [(0, 1), (0, 2), (0, 3), (1, 2), (2, 3), (3, 1)]⟩ ∧
    aabbMinMax [⟨0, 0, 0⟩, ⟨1, 0, 0⟩, ⟨0, 1, 0⟩, ⟨0, 0, 1⟩] =
      some (⟨0, 0, 0⟩, ⟨0, 1, 0⟩) ∧
    (⟨0, 1, 0⟩ : V3 ℚ) ≠ ⟨1, 1, 1⟩ := by
  refine ⟨rfl, rfl, ?_⟩
  intro h
  exact absurd (congrArg V3.x h) (by norm_num)

/-! ## C2: the model transform maps the AABB onto the unit cube -/

/-- C2: for every AABB with strictly positive extent on all three
axes, the model-normalization matrix of `main` maps `aabb_min` to
`(-1, -1, -1)` and `aabb_max` to `(+1, +1, +1)`. -/
theorem c2_model_maps_aabb_to_unit_cube (mn mx : V3 ℚ)
    (h1 : mn.x < mx.x) (h2 : mn.y < mx.y) (h3 : mn.z < mx.z) :
    applyM (model mn mx) mn = ⟨-1, -1, -1⟩ ∧
    applyM (model mn mx) mx = ⟨1, 1, 1⟩ := by
  have e1 : mx.x - mn.x ≠ 0 := sub_ne_zero.mpr (ne_of_gt h1)
  have e2 : mx.y - mn.y ≠ 0 := sub_ne_zero.mpr (ne_of_gt h2)
  have e3 : mx.z - mn.z ≠ 0 := sub_ne_zero.mpr (ne_of_gt h3)
  constructor <;>
  · simp only [applyM, model, glmTranslate, glmScale, id4, scaleMat, translateMat,
      Mat4.mul, onePer, V3.mk.injEq]
    simp only [V3.sub_x, V3.sub_y, V3.sub_z, V3.add_x, V3.add_y, V3.add_z,
      V3.smul_x, V3.smul_y, V3.smul_z]
    refine ⟨?_, ?_, ?_⟩ <;> field_simp <;> ring

/-- Witness for C2 at the concrete AABB `min = (0,0,0)`, `max = (2,3,4)`. -/
theorem c2_model_maps_aabb_to_unit_cube_witness :
    ((⟨0, 0, 0⟩ : V3 ℚ).x < (⟨2, 3, 4⟩ : V3 ℚ).x ∧
     (⟨0, 0, 0⟩ : V3 ℚ).y < (⟨2, 3, 4⟩ : V3 ℚ).y ∧
     (⟨0, 0, 0⟩ : V3 ℚ).z < (⟨2, 3, 4⟩ : V3 ℚ).z) ∧
    applyM (model ⟨0, 0, 0⟩ ⟨2, 3, 4⟩) ⟨0, 0, 0⟩ = ⟨-1, -1, -1⟩ ∧
    applyM (model ⟨0, 0, 0⟩ ⟨2, 3, 4⟩) ⟨2, 3, 4⟩ = ⟨1, 1, 1⟩ := by
  have h := c2_model_maps_aabb_to_unit_cube ⟨0, 0, 0⟩ ⟨2, 3, 4⟩
    (by norm_num) (by norm_num) (by norm_num)
  exact ⟨⟨by norm_num, by norm_num, by norm_num⟩, h.1, h.2⟩

/-! ## C3: no small-extent substitution for a degenerate AABB -/

/-- C3: the single-vertex input (spec boundary case) produces the
degenerate AABB `min = max = (0,0,0)`; the program performs no
substitution of a small positive extent, and in exact arithmetic its
model matrix is singular — every point, `aabb_min` and `(1,1,1)`
alike, is collapsed to `(0,0,0)` instead of being mapped onto the
cube `[-1, 1]^3` by a finite, non-singular transform.  (In the
program's `float` arithmetic the scale entries `1/0` are infinite.) -/
theorem c3_degenerate_aabb_not_guarded :
    aabbMinMax [(⟨0, 0, 0⟩ : V3 ℚ)] = some (⟨0, 0, 0⟩, ⟨0, 0, 0⟩) ∧
    applyM (model ⟨0, 0, 0⟩ ⟨0, 0, 0⟩) ⟨0, 0, 0⟩ = ⟨0, 0, 0⟩ ∧
    applyM (model ⟨0, 0, 0⟩ ⟨0, 0, 0⟩) ⟨1, 1, 1⟩ = ⟨0, 0, 0⟩ := by
  refine ⟨rfl, ?_, ?_⟩ <;>
  · simp only [applyM, model, glmTranslate, glmScale, id4, scaleMat, translateMat,
      Mat4.mul, onePer, V3.mk.injEq]
    norm_num

/-! ## C6: when the parser fails -/

/-- One line of the parse loop succeeds exactly when the line is blank
or its command token is `v` or `l`; numeric fields are never checked. -/
theorem parseLine_okB (st : Frontier) (l : String) : okB (parseLine st l) = goodLine l := by
  by_cases h : l = ""
  · simp [parseLine, goodLine, h, okB]
  · cases hts : tokensOf l with
    | nil => simp [parseLine, goodLine, firstTok, h, hts, readTok, okB]
    | cons t ts =>
      by_cases hv : t = "v"
      · simp [parseLine, goodLine, firstTok, h, hts, readTok, okB, hv]
      · by_cases hl : t = "l"
        · simp [parseLine, goodLine, firstTok, h, hts, readTok, okB, hv, hl]
        · simp [parseLine, goodLine, firstTok, h, hts, readTok, okB, hv, hl]

/-- C6 counterexample: the claim says a `v` line with a malformed
numeric field is a parse error, but the program never checks the
stream state after numeric extraction: on `"v a b c"` — which the
spec-side failure predicate `specLineFails` classifies as malformed —
the parser succeeds (storing `0` for the failed field). -/
theorem c6_counterexample_malformed_field_accepted :
    specLineFails "v a b c" = true ∧
    okB (parseLines ["v a b c"] pInit) = true :=
  ⟨rfl, rfl⟩

/-- C6 (amended): the parser fails if and only if the input contains a
non-blank line whose command token is neither `v` nor `l` (for an
all-whitespace line that token is the empty string); malformed or
missing numeric fields never cause failure. -/
theorem c6_parser_fails_iff_bad_command (ls : List String) (st : Frontier) :
    okB (parseLines ls st) = true ↔ ∀ l ∈ ls, goodLine l = true := by
  induction ls generalizing st with
  | nil => simp [parseLines, okB]
  | cons l ls ih =>
    have hok := parseLine_okB st l
    cases hp : parseLine st l with
    | ok st2 =>
      rw [hp] at hok
      simp only [parseLines, hp]
      rw [ih st2]
      simp only [okB] at hok
      simp [← hok]
    | error e =>
      rw [hp] at hok
      simp only [parseLines, hp]
      simp only [okB] at hok ⊢
      constructor
      · intro hcon; exact absurd hcon (by simp)
      · intro hall; exact absurd (hall l (by simp)) (by simp [← hok])

/-- Witness for C6 (amended) on the concrete input `["v 0 0 0", "x 1"]`:
the unknown command `x` makes the parse fail. -/
theorem c6_parser_fails_iff_bad_command_witness :
    okB (parseLines ["v 0 0 0", "x 1"] pInit) = false := by
  have h := c6_parser_fails_iff_bad_command ["v 0 0 0", "x 1"] pInit
  by_contra hc
  rw [Bool.not_eq_false] at hc
  have := h.mp hc "x 1" (by simp)
  exact absurd this (by decide)

/-! ## C7: edge indices are not validated against the vertex count -/

/-- C7 counterexample: the parser accepts an input whose only edge
refers to vertex index 5 while only one vertex was parsed, so the
claimed invariant `edgesValidB` fails on an accepted frontier. -/
theorem c7_counterexample_out_of_range_edge :
    parseLines ["v 0 0 0", "l 0 5"] pInit =
      Except.ok ⟨[⟨0, 0, 0⟩], [(0, 5)]⟩ ∧
    edgesValidB ⟨[⟨0, 0, 0⟩], [(0, 5)]⟩ = false :=
  ⟨rfl, rfl⟩

/-- Every `uint32_t` extraction yields a value below `2^32` whenever
the target's previous value was. -/
theorem extractU32_lt (s : SS) (cur : ℕ) (h : cur < 2 ^ 32) :
    (extractU32 s cur).2 < 2 ^ 32 := by
  by_cases hf : s.fail = true
  · simpa [extractU32, hf] using h
  · cases hts : s.toks with
    | nil => simpa [extractU32, hf, hts] using h
    | cons t ts =>
      cases hp : parseUIntTok t with
      | some n =>
        simp [extractU32, hf, hts, hp]
        split
        · rename_i hlt; exact hlt
        · norm_num
      | none => simp [extractU32, hf, hts, hp]

/-- One parse-loop iteration preserves the `< 2^32` bound on all
stored edge indices. -/
theorem parseLine_edges_lt (st : Frontier) (l : String) (stm : Frontier)
    (hst : ∀ e ∈ st.edges, e.1 < 2 ^ 32 ∧ e.2 < 2 ^ 32)
    (h : parseLine st l = Except.ok stm) :
    ∀ e ∈ stm.edges, e.1 < 2 ^ 32 ∧ e.2 < 2 ^ 32 := by
  by_cases h0 : l = ""
  · rw [parseLine, if_pos h0] at h
    cases h; exact hst
  · simp only [parseLine, if_neg h0] at h
    by_cases hv : (readTok ⟨tokensOf l, false⟩).2 = "v"
    · rw [if_pos hv] at h
      cases h; exact hst
    · rw [if_neg hv] at h
      by_cases hl : (readTok ⟨tokensOf l, false⟩).2 = "l"
      · rw [if_pos hl] at h
        cases h
        intro e he
        simp only [List.mem_append, List.mem_singleton] at he
        rcases he with he | he
        · exact hst e he
        · subst he
          exact ⟨extractU32_lt _ 0 (by norm_num), extractU32_lt _ 0 (by norm_num)⟩
      · rw [if_neg hl] at h
        exact absurd h (by simp)

/-- C7 (amended): edge indices of an accepted frontier are stored as
`uint32_t`, hence below `2^32`; they are not checked against the
vertex count (see the counterexample). -/
theorem c7_accepted_edge_indices_lt_u32 (ls : List String) (stf : Frontier)
    (h : parseLines ls pInit = Except.ok stf) :
    ∀ e ∈ stf.edges, e.1 < 2 ^ 32 ∧ e.2 < 2 ^ 32 := by
  have main : ∀ ls (st stf : Frontier),
      (∀ e ∈ st.edges, e.1 < 2 ^ 32 ∧ e.2 < 2 ^ 32) →
      parseLines ls st = Except.ok stf →
      ∀ e ∈ stf.edges, e.1 < 2 ^ 32 ∧ e.2 < 2 ^ 32 := by
    intro ls
    induction ls with
    | nil =>
      intro st stf hst h
      rw [parseLines] at h
      cases h; exact hst
    | cons l ls ih =>
      intro st stf hst h
      rw [parseLines] at h
      cases hp : parseLine st l with
      | ok st2 =>
        rw [hp] at h
        exact ih st2 stf (parseLine_edges_lt st l st2 hst hp) h
      | error e =>
        rw [hp] at h
        exact absurd h (by simp)
  exact main ls pInit stf (by simp [pInit]) h

/-- Witness for C7 (amended) on the concrete accepted input
`["v 0 0 0", "l 0 5"]` and its edge `(0, 5)`. -/
theorem c7_accepted_edge_indices_lt_u32_witness :
    (0 : ℕ) < 2 ^ 32 ∧ (5 : ℕ) < 2 ^ 32 :=
  c7_accepted_edge_indices_lt_u32 ["v 0 0 0", "l 0 5"] ⟨[⟨0, 0, 0⟩], [(0, 5)]⟩
    rfl (0, 5) (by simp)

/-! ## C10: the empty vertex list reaches the AABB computation -/

/-- C10: an input with no `v` line is accepted by the parser (here a
single `l` line), leaving the vertex list empty; the AABB computation,
which reads `vertices[0]` unconditionally, has no value on that list —
the out-of-bounds access modelled as `none`.  The non-empty vertex
list is an unchecked precondition at the program's interface. -/
theorem c10_empty_vertex_list_accepted :
    parseLines ["l 0 1"] pInit = Except.ok ⟨[], [(0, 1)]⟩ ∧
    aabbMinMax ([] : List (V3 ℚ)) = none :=
  ⟨rfl, rfl⟩

/-! ## C4: altitude stays strictly inside the poles -/

/-- The clamp bound is positive. -/
theorem orbitBound_pos : 0 < orbitBound := by
  have h := Real.pi_gt_three
  unfold orbitBound
  norm_num
  linarith

/-- The clamp bound lies strictly below `π/2`. -/
theorem orbitBound_lt : orbitBound < Real.pi / 2 := by
  unfold orbitBound
  norm_num

/-- `std::clamp` lands in `[lo, hi]`. -/
theorem clampf_mem (v lo hi : ℝ) (h : lo ≤ hi) :
    lo ≤ clampf v lo hi ∧ clampf v lo hi ≤ hi := by
  unfold clampf
  split
  · exact ⟨le_refl lo, h⟩
  · split
    · exact ⟨h, le_refl hi⟩
    · rename_i h1 h2
      exact ⟨le_of_not_lt h1, le_of_not_lt h2⟩

/-- `std::clamp` pins values at or above the upper bound to it. -/
theorem clampf_pin_hi (v lo hi : ℝ) (hlo : lo ≤ hi) (h : hi ≤ v) : clampf v lo hi = hi := by
  unfold clampf
  split
  · rename_i h1; linarith
  · split
    · rfl
    · rename_i h1 h2; linarith [le_of_not_lt h2]

/-- `std::clamp` pins values at or below the lower bound to it. -/
theorem clampf_pin_lo (v lo hi : ℝ) (hlo : lo ≤ hi) (h : v ≤ lo) : clampf v lo hi = lo := by
  unfold clampf
  split
  · rfl
  · split
    · rename_i h1 h2; linarith
    · rename_i h1 h2; linarith [le_of_not_lt h1]

/-- Every controller event keeps the altitude inside
`[-orbitBound, orbitBound]` once it is there. -/
theorem step_altitude_mem (H : ℝ) (c : Camera) (e : Ev)
    (h : -orbitBound ≤ c.altitude ∧ c.altitude ≤ orbitBound) :
    -orbitBound ≤ (step H c e).altitude ∧ (step H c e).altitude ≤ orbitBound := by
  have hb : -orbitBound ≤ orbitBound := by linarith [orbitBound_pos]
  cases e with
  | scroll d => simpa [step] using h
  | frame left right dx dy =>
    cases left <;> cases right <;>
      simp [step, h, clampf_mem _ _ _ hb]

/-- C4: starting from the initial camera state (altitude 0), every
finite sequence of controller events leaves the altitude strictly
inside `(-π/2, π/2)`; moreover an orbit frame that pushes the altitude
to or past `±orbitBound = ±(π/2 - 1e-5)` pins it at that bound. -/
theorem c4_altitude_strictly_inside_poles (H : ℝ) (evs : List Ev) :
    (-(Real.pi / 2) < (evs.foldl (step H) camInit).altitude ∧
     (evs.foldl (step H) camInit).altitude < Real.pi / 2) ∧
    (∀ (c : Camera) (dx dy : ℝ) (rb : Bool),
        orbitBound ≤ c.altitude + dy * 0.01 →
        (step H c (Ev.frame true rb dx dy)).altitude = orbitBound) ∧
    (∀ (c : Camera) (dx dy : ℝ) (rb : Bool),
        c.altitude + dy * 0.01 ≤ -orbitBound →
        (step H c (Ev.frame true rb dx dy)).altitude = -orbitBound) := by
  have hb : -orbitBound ≤ orbitBound := by linarith [orbitBound_pos]
  refine ⟨?_, ?_, ?_⟩
  · have inv : ∀ (l : List Ev) (c : Camera),
        -orbitBound ≤ c.altitude ∧ c.altitude ≤ orbitBound →
        -orbitBound ≤ (l.foldl (step H) c).altitude ∧
          (l.foldl (step H) c).altitude ≤ orbitBound := by
      intro l
      induction l with
      | nil => intro c h; exact h
      | cons e l ih => intro c h; exact ih _ (step_altitude_mem H c e h)
    have h0 : -orbitBound ≤ camInit.altitude ∧ camInit.altitude ≤ orbitBound := by
      have := orbitBound_pos
      constructor <;> · show _ ≤ _; simp [camInit]; linarith
    have h := inv evs camInit h0
    have := orbitBound_lt
    exact ⟨by linarith [h.1], by linarith [h.2]⟩
  · intro c dx dy rb hge
    cases rb <;> simp [step, clampf_pin_hi _ _ _ hb hge]
  · intro c dx dy rb hle
    cases rb <;> simp [step, clampf_pin_lo _ _ _ hb hle]

/-- Witness for C4: the empty event list, plus an orbit frame with
`dy = 200` px (and one with `dy = -200` px) from the initial state,
which pins the altitude at `orbitBound` (resp. `-orbitBound`). -/
theorem c4_altitude_strictly_inside_poles_witness :
    (-(Real.pi / 2) < (([] : List Ev).foldl (step 500) camInit).altitude ∧
     (([] : List Ev).foldl (step 500) camInit).altitude < Real.pi / 2) ∧
    (orbitBound ≤ camInit.altitude + 200 * 0.01 ∧
     (step 500 camInit (Ev.frame true false 0 200)).altitude = orbitBound) ∧
    (camInit.altitude + (-200) * 0.01 ≤ -orbitBound ∧
     (step 500 camInit (Ev.frame true false 0 (-200))).altitude = -orbitBound) := by
  have h := c4_altitude_strictly_inside_poles 500 []
  have hpi := Real.pi_lt_four
  have ha : camInit.altitude = 0 := rfl
  have hge : orbitBound ≤ camInit.altitude + 200 * 0.01 := by
    rw [ha]; unfold orbitBound; norm_num; linarith
  have hle : camInit.altitude + (-200) * 0.01 ≤ -orbitBound := by
    rw [ha]; unfold orbitBound; norm_num; linarith
  exact ⟨h.1, ⟨hge, h.2.1 camInit 0 200 false hge⟩,
    ⟨hle, h.2.2 camInit 0 (-200) false hle⟩⟩

/-! ## C5: zoom is multiplicative, order-independent, positive -/

/-- Folding scroll events multiplies the radius by
`exp(-0.1 * (sum of deltas))`. -/
theorem scrollFold_radius (H : ℝ) (ds : List ℝ) (c : Camera) :
    ((ds.map Ev.scroll).foldl (step H) c).radius =
      c.radius * Real.exp (-(0.1) * ds.sum) := by
  induction ds generalizing c with
  | nil => simp [step]
  | cons d ds ih =>
    simp only [List.map_cons, List.foldl_cons, List.sum_cons]
    rw [ih]
    simp only [step]
    rw [show -(0.1) * (d + ds.sum) = -(0.1) * d + -(0.1) * ds.sum by ring, Real.exp_add]
    ring

/-- C5: for every starting state with positive radius and every finite
list of scroll deltas, the final radius is
`r₀ * exp(-0.1 * Σ dᵢ)`; any permutation of the deltas yields the same
radius; and the radius stays strictly positive. -/
theorem c5_zoom_exponential_commutative_positive (H : ℝ) (c : Camera)
    (ds ds2 : List ℝ) (h0 : 0 < c.radius) (hperm : ds.Perm ds2) :
    ((ds.map Ev.scroll).foldl (step H) c).radius =
      c.radius * Real.exp (-(0.1) * ds.sum) ∧
    ((ds.map Ev.scroll).foldl (step H) c).radius =
      ((ds2.map Ev.scroll).foldl (step H) c).radius ∧
    0 < ((ds.map Ev.scroll).foldl (step H) c).radius := by
  refine ⟨scrollFold_radius H ds c, ?_, ?_⟩
  · rw [scrollFold_radius, scrollFold_radius, hperm.sum_eq]
  · rw [scrollFold_radius]
    exact mul_pos h0 (Real.exp_pos _)

/-- Witness for C5: the spec's zoom-composition scenario, deltas
`+3` then `-3` (and their swap) from the initial radius 5. -/
theorem c5_zoom_exponential_commutative_positive_witness :
    (0 : ℝ) < camInit.radius ∧
    ((([3, -3] : List ℝ).map Ev.scroll).foldl (step 500) camInit).radius =
      camInit.radius * Real.exp (-(0.1) * ([3, -3] : List ℝ).sum) ∧
    ((([3, -3] : List ℝ).map Ev.scroll).foldl (step 500) camInit).radius =
      ((([-3, 3] : List ℝ).map Ev.scroll).foldl (step 500) camInit).radius ∧
    0 < ((([3, -3] : List ℝ).map Ev.scroll).foldl (step 500) camInit).radius := by
  have h0 : (0 : ℝ) < camInit.radius := by norm_num [camInit]
  have hperm : ([3, -3] : List ℝ).Perm [-3, 3] := List.Perm.swap (-3) 3 []
  have h := c5_zoom_exponential_commutative_positive 500 camInit [3, -3] [-3, 3] h0 hperm
  exact ⟨h0, h.1, h.2.1, h.2.2⟩

/-! ## C9: pan displacement -/

/-- Componentwise extensionality for `V3 ℝ`. -/
theorem V3.extR {a b : V3 ℝ} (hx : a.x = b.x) (hy : a.y = b.y) (hz : a.z = b.z) :
    a = b := by
  cases a; cases b
  simp only at hx hy hz
  simp [hx, hy, hz]

/-- `length(camera) = radius` for a positive radius: the spherical
direction vector is a unit vector. -/
theorem length_camVec (c : Camera) (h : 0 < c.radius) : length (camVec c) = c.radius := by
  unfold length camVec
  simp only [V3.smul_x, V3.smul_y, V3.smul_z]
  have ht := Real.sin_sq_add_cos_sq c.azimuth
  have ha := Real.sin_sq_add_cos_sq c.altitude
  have key : c.radius * (Real.cos c.altitude * Real.cos c.azimuth) *
        (c.radius * (Real.cos c.altitude * Real.cos c.azimuth)) +
      c.radius * (Real.cos c.altitude * Real.sin c.azimuth) *
        (c.radius * (Real.cos c.altitude * Real.sin c.azimuth)) +
      c.radius * Real.sin c.altitude * (c.radius * Real.sin c.altitude) =
      c.radius ^ 2 := by
    linear_combination (c.radius ^ 2 * Real.cos c.altitude ^ 2) * ht +
      c.radius ^ 2 * ha
  rw [key]
  exact Real.sqrt_sq h.le

/-- C9: on every frame with the right button held (left held or not),
the origin is translated by exactly
`scale • ((-dx) • right + dy • up_in_plane)` with
`scale = 1.3 * pixel_size * radius` — linear in the radius, since
`length(camera) = radius`. -/
theorem c9_pan_displacement (H : ℝ) (c : Camera) (lb : Bool) (dx dy : ℝ)
    (hr : 0 < c.radius) :
    (step H c (Ev.frame lb true dx dy)).origin =
      c.origin + (1.3 * pixelSize H * c.radius) •
        ((-dx) • camRight c + dy • camUp c) := by
  have hl := length_camVec c hr
  cases lb <;>
  · simp only [step, hl]
    apply V3.extR <;> simp <;> ring

/-- Witness for C9 at the initial camera (radius 5), viewport height
500 and cursor delta `(1, 2)`. -/
theorem c9_pan_displacement_witness :
    (0 : ℝ) < camInit.radius ∧
    (step 500 camInit (Ev.frame false true 1 2)).origin =
      camInit.origin + (1.3 * pixelSize 500 * camInit.radius) •
        ((-(1 : ℝ)) • camRight camInit + (2 : ℝ) • camUp camInit) := by
  have h0 : (0 : ℝ) < camInit.radius := by norm_num [camInit]
  exact ⟨h0, c9_pan_displacement 500 camInit false 1 2 h0⟩

/-! ## C8: the projection is not built for 45 degrees -/

/-- C8: the projection matrix `resize` builds —
`glm::perspective(fov, aspect, 0.1, 10000)` with the raw degree value
`fov = 45` passed where `glm::perspective` expects radians — differs
from the symmetric perspective matrix for a vertical field of view of
45 degrees (`45·π/180` radians), for every aspect ratio and every
near/far pair: the `[1][1]` entries `1/tan(22.5)` and `1/tan(π/8)`
differ, because `tan(22.5 rad) = tan(22.5 - 7π) > tan(π/8) > 0`. -/
theorem c8_projection_fov_degrees_vs_radians (aspect zNear zFar : ℝ) :
    glmPerspective fovDeg aspect zNear zFar ≠
      glmPerspective (fovDeg * Real.pi / 180) aspect zNear zFar := by
  intro h
  have h11 := congrArg Mat4.a11 h
  simp only [glmPerspective, fovDeg] at h11
  have e1 : (45 : ℝ) / 2 = 22.5 := by norm_num
  have e2 : (45 : ℝ) * Real.pi / 180 / 2 = Real.pi / 8 := by ring
  rw [e1, e2] at h11
  have hper : Real.tan (22.5 - (7 : ℕ) * Real.pi) = Real.tan 22.5 :=
    Real.tan_periodic.sub_nat_mul_eq 7
  have hgt := Real.pi_gt_three
  have hlt := Real.pi_lt_d6
  have hpos := Real.pi_pos
  have h1 : (0 : ℝ) < Real.pi / 8 := by linarith
  have h2 : Real.pi / 8 < 22.5 - (7 : ℕ) * Real.pi := by push_cast; linarith
  have h3 : 22.5 - (7 : ℕ) * Real.pi < Real.pi / 2 := by push_cast; linarith
  have htanpos : 0 < Real.tan (Real.pi / 8) :=
    Real.tan_pos_of_pos_of_lt_pi_div_two h1 (by linarith)
  have htanlt : Real.tan (Real.pi / 8) < Real.tan (22.5 - (7 : ℕ) * Real.pi) :=
    Real.tan_lt_tan_of_nonneg_of_lt_pi_div_two h1.le h3 h2
  rw [hper] at htanlt
  have hne : 1 / Real.tan 22.5 < 1 / Real.tan (Real.pi / 8) :=
    one_div_lt_one_div_of_lt htanpos htanlt
  exact absurd h11 (ne_of_lt hne)
